import Mathlib

/-!
Shallow embedding of the DNS query wire-format encoder from `src/main.rs`
(repository `lffg/dns-res`).

Bytes are modelled as `List Nat`; every `u16` field of the Rust structs is a
`Nat` (theorems about 16-bit fields carry the `< 2^16` bound as a hypothesis
where it matters).  The Rust `BufMut` output sink is modelled by explicit
state passing: each `serialize` takes the buffer accumulated so far (`dst`)
and returns the new buffer.  The one fallible operation in the source —
`part.len().try_into().unwrap()` in `Domain::serialize`, which aborts when a
dot-separated label is longer than 255 bytes — is modelled with `Except`:
the serialization of a `Domain` (and everything built on it) returns
`Except EncodingError (List Nat)`.
-/

namespace DnsRes

/-- `BufMut::put_u16` (crate `bytes`): append a 16-bit value in big-endian
byte order.  For `v < 2^16` this is `[v / 256, v % 256]`. -/
def putU16 (v : Nat) : List Nat :=
  [v / 256 % 256, v % 256]

/-- `struct DnsHeader` from `src/main.rs`: six 16-bit fields. -/
structure DnsHeader where
  id : Nat
  flags : Nat
  num_questions : Nat
  num_answers : Nat
  num_authorities : Nat
  num_additionals : Nat
deriving DecidableEq, Repr

/-- `impl Serialize for DnsHeader`: six `put_u16` calls, in field order.
Infallible in the source, so it returns the new buffer directly. -/
def DnsHeader.serialize (h : DnsHeader) (dst : List Nat) : List Nat :=
  dst ++ putU16 h.id ++ putU16 h.flags ++ putU16 h.num_questions
      ++ putU16 h.num_answers ++ putU16 h.num_authorities
      ++ putU16 h.num_additionals

/-- The failure mode of `Domain::serialize`: in the source,
`part.len().try_into().unwrap()` panics when a label length does not fit in
a `u8`; the spec calls this `EncodingError::LabelTooLong`. -/
inductive EncodingError where
  | labelTooLong
deriving DecidableEq, Repr

/-- `struct Domain<'a>(&'a [u8])`: a borrowed byte sequence holding a
dot-separated name.  The single unnamed Rust field is `val`. -/
structure Domain where
  val : List Nat
deriving DecidableEq, Repr

/-- The loop body of `Domain::serialize`: for each part produced by
splitting on `b'.'`, convert its length to `u8` (failing when it exceeds
255, before emitting anything for that part), then append the length byte
and the part's raw bytes. -/
def serializeLabels (parts : List (List Nat)) (dst : List Nat) :
    Except EncodingError (List Nat) :=
  match parts with
  | [] => .ok dst
  | p :: rest =>
    if p.length ≤ 255 then serializeLabels rest (dst ++ p.length :: p)
    else .error .labelTooLong

/-- `impl Serialize for Domain`: split the bytes on the ASCII dot (byte 46),
run the label loop, then append the terminating zero byte. -/
def Domain.serialize (d : Domain) (dst : List Nat) :
    Except EncodingError (List Nat) :=
  match serializeLabels (d.val.splitOn 46) dst with
  | .ok dst => .ok (dst ++ [0])
  | .error e => .error e

/-- `enum Type` from `src/main.rs` (`Type` is reserved in Lean, hence `Ty`):
only the address-record variant `A` exists. -/
inductive Ty where
  | A
deriving DecidableEq, Repr

/-- The `self.ty as u16` cast: `A = 0x1`. -/
def Ty.toU16 : Ty → Nat
  | .A => 1

/-- `enum Class` from `src/main.rs`: only the Internet variant `In`. -/
inductive Class where
  | In
deriving DecidableEq, Repr

/-- The `self.class as u16` cast: `In = 0x1`. -/
def Class.toU16 : Class → Nat
  | .In => 1

/-- `struct DnsQuestion<'a>`: name, type and class.  The Rust field
`class` is a Lean keyword, hence `cls`. -/
structure DnsQuestion where
  name : Domain
  ty : Ty
  cls : Class
deriving DecidableEq, Repr

/-- `impl Serialize for DnsQuestion`: the name's encoding, then the type
code and the class code, each via `put_u16`. -/
def DnsQuestion.serialize (q : DnsQuestion) (dst : List Nat) :
    Except EncodingError (List Nat) :=
  match q.name.serialize dst with
  | .ok dst => .ok (dst ++ putU16 q.ty.toU16 ++ putU16 q.cls.toU16)
  | .error e => .error e

/-- `struct DnsQuery<'a>`: a header plus exactly one question. -/
structure DnsQuery where
  header : DnsHeader
  question : DnsQuestion
deriving DecidableEq, Repr

/-- `DnsQuery::new(id, domain, ty)`: header with the given id, the
`RECURSION_DESIRED = 1 << 8` flag, one question and all other counts left
at `u16::default()` (zero); question with the given domain, the given type
and class `In`. -/
def DnsQuery.new (id : Nat) (domain : List Nat) (ty : Ty) : DnsQuery :=
  { header :=
      { id := id
        flags := 256
        num_questions := 1
        num_answers := 0
        num_authorities := 0
        num_additionals := 0 }
    question :=
      { name := ⟨domain⟩
        ty := ty
        cls := Class.In } }

/-- `impl Serialize for DnsQuery`: the header's encoding, then the
question's. -/
def DnsQuery.serialize (q : DnsQuery) (dst : List Nat) :
    Except EncodingError (List Nat) :=
  q.question.serialize (q.header.serialize dst)

/-- Modelled from the spec (no decoder exists in `src/`): one step of
reading a length prefix and taking that many following bytes; the `fuel`
argument only bounds the recursion depth (each step consumes at least one
byte, so `l.length` fuel always suffices) and keeps the recursion
structural. -/
def decodeLabelsFuel : Nat → List Nat → Option (List (List Nat))
  | _, [] => none
  | 0, _ :: _ => none
  | fuel + 1, n :: rest =>
    if n = 0 then (if rest.isEmpty then some [] else none)
    else if n ≤ rest.length then
      match decodeLabelsFuel fuel (rest.drop n) with
      | some labs => some (rest.take n :: labs)
      | none => none
    else none

/-- Modelled from the spec (no decoder exists in `src/`): read the
length-prefixed labels of a DomainName encoding, "reading each length
prefix and taking that many following bytes, until a zero-length label";
the zero-length label terminates the buffer. -/
def decodeLabels (l : List Nat) : Option (List (List Nat)) :=
  decodeLabelsFuel l.length l

deriving instance DecidableEq for Except

/-! ## Shared lemmas about the encoder -/

/-- When every part fits in a `u8`, the label loop appends, for each part
in order, its length byte followed by its raw bytes. -/
theorem serializeLabels_ok (parts : List (List Nat)) (dst : List Nat)
    (h : ∀ p ∈ parts, p.length ≤ 255) :
    serializeLabels parts dst
      = .ok (dst ++ parts.flatMap fun p => p.length :: p) := by
  induction parts generalizing dst with
  | nil => simp [serializeLabels]
  | cons p rest ih =>
    have hp : p.length ≤ 255 := h p (by simp)
    rw [serializeLabels, if_pos hp, ih (dst ++ p.length :: p)
      (fun q hq => h q (List.mem_cons_of_mem _ hq))]
    simp

/-- When some part exceeds 255 bytes, the label loop fails with
`labelTooLong` (the first over-long part aborts the loop). -/
theorem serializeLabels_err (parts : List (List Nat)) (dst : List Nat)
    (h : ∃ p ∈ parts, 255 < p.length) :
    serializeLabels parts dst = .error .labelTooLong := by
  induction parts generalizing dst with
  | nil => simp at h
  | cons p rest ih =>
    by_cases hp : p.length ≤ 255
    · rw [serializeLabels, if_pos hp]
      apply ih
      rcases h with ⟨q, hq, hql⟩
      rcases List.mem_cons.mp hq with rfl | hq'
      · omega
      · exact ⟨q, hq', hql⟩
    · rw [serializeLabels, if_neg hp]

/-- The label loop only appends: its result on `dst` is its result on the
empty buffer, with `dst` in front. -/
theorem serializeLabels_frame (parts : List (List Nat)) (dst : List Nat) :
    serializeLabels parts dst
      = (serializeLabels parts []).map fun s => dst ++ s := by
  by_cases hall : ∀ p ∈ parts, p.length ≤ 255
  · rw [serializeLabels_ok parts dst hall, serializeLabels_ok parts [] hall]
    simp [Except.map]
  · push_neg at hall
    rw [serializeLabels_err parts dst hall, serializeLabels_err parts [] hall]
    simp [Except.map]

/-- `Domain::serialize` on a name whose labels all fit in a `u8`. -/
theorem domain_serialize_ok (d : Domain) (dst : List Nat)
    (h : ∀ p ∈ d.val.splitOn 46, p.length ≤ 255) :
    Domain.serialize d dst
      = .ok (dst ++ ((d.val.splitOn 46).flatMap fun p => p.length :: p)
          ++ [0]) := by
  rw [Domain.serialize, serializeLabels_ok _ _ h]

/-- `Domain::serialize` on a name with an over-long label. -/
theorem domain_serialize_err (d : Domain) (dst : List Nat)
    (h : ∃ p ∈ d.val.splitOn 46, 255 < p.length) :
    Domain.serialize d dst = .error .labelTooLong := by
  rw [Domain.serialize, serializeLabels_err _ _ h]

/-- `Domain::serialize` only appends. -/
theorem domain_serialize_frame (d : Domain) (dst : List Nat) :
    Domain.serialize d dst
      = (Domain.serialize d []).map fun s => dst ++ s := by
  rw [Domain.serialize, Domain.serialize, serializeLabels_frame _ dst]
  cases serializeLabels (d.val.splitOn 46) [] with
  | ok s => simp [Except.map]
  | error e => simp [Except.map]

/-- `DnsHeader::serialize` only appends. -/
theorem header_serialize_frame (h : DnsHeader) (dst : List Nat) :
    DnsHeader.serialize h dst = dst ++ DnsHeader.serialize h [] := by
  simp [DnsHeader.serialize]

/-- `DnsQuestion::serialize` on a question whose name's labels all fit. -/
theorem question_serialize_ok (q : DnsQuestion) (dst : List Nat)
    (h : ∀ p ∈ q.name.val.splitOn 46, p.length ≤ 255) :
    DnsQuestion.serialize q dst
      = .ok (dst ++ (((q.name.val.splitOn 46).flatMap fun p => p.length :: p)
          ++ [0]) ++ putU16 q.ty.toU16 ++ putU16 q.cls.toU16) := by
  rw [DnsQuestion.serialize, domain_serialize_ok _ _ h]
  simp

/-- `DnsQuestion::serialize` only appends. -/
theorem question_serialize_frame (q : DnsQuestion) (dst : List Nat) :
    DnsQuestion.serialize q dst
      = (DnsQuestion.serialize q []).map fun s => dst ++ s := by
  rw [DnsQuestion.serialize, DnsQuestion.serialize,
    domain_serialize_frame _ dst]
  cases q.name.serialize [] with
  | ok s => simp [Except.map]
  | error e => simp [Except.map]

/-- Decoding inverts the label encoding as long as no label is empty (an
empty label's length byte is indistinguishable from the terminator). -/
theorem decodeLabelsFuel_flatMap (labs : List (List Nat))
    (h : ∀ p ∈ labs, p ≠ [] ∧ p.length ≤ 255) :
    ∀ fuel, ((labs.flatMap fun p => p.length :: p) ++ [0]).length ≤ fuel →
      decodeLabelsFuel fuel ((labs.flatMap fun p => p.length :: p) ++ [0])
        = some labs := by
  induction labs with
  | nil =>
    intro fuel hf
    simp at hf
    cases fuel with
    | zero => omega
    | succ fuel => simp [decodeLabelsFuel]
  | cons p t ih =>
    intro fuel hf
    have hp := h p (by simp)
    have hne : p.length ≠ 0 := by
      cases p with
      | nil => exact absurd rfl hp.1
      | cons a l => simp
    have hshape : ((p :: t).flatMap fun p => p.length :: p) ++ [0]
        = p.length :: (p ++ ((t.flatMap fun p => p.length :: p) ++ [0])) := by
      simp
    rw [hshape] at hf ⊢
    cases fuel with
    | zero => simp at hf
    | succ fuel =>
      have hle : p.length ≤ (p ++ ((t.flatMap fun p => p.length :: p) ++ [0])).length := by
        simp
      rw [decodeLabelsFuel, if_neg hne, if_pos hle, List.drop_left,
        ih (fun q hq => h q (List.mem_cons_of_mem _ hq)) fuel (by simp at hf ⊢; omega),
        List.take_left]

/-- The label encoding of a list of parts is one length byte per part plus
the part's bytes. -/
theorem length_flatMap_label (l : List (List Nat)) :
    (l.flatMap fun p => p.length :: p).length
      = (l.map fun p => 1 + p.length).sum := by
  induction l with
  | nil => simp
  | cons p t ih => simp [ih]; omega

/-! ## Claims -/

/-- C1: Query serialization appends exactly the Header encoding immediately
followed by the QuestionRecord encoding (name labels, terminator, type,
class), with no length prefix and no trailing padding, and the number of
appended bytes is 12 + (sum over labels of 1 + label length) + 1 + 4. -/
theorem query_serialize_header_then_question (q : DnsQuery) (dst : List Nat)
    (h : ∀ p ∈ q.question.name.val.splitOn 46, p.length ≤ 255) :
    DnsQuery.serialize q dst
      = .ok (dst ++ DnsHeader.serialize q.header []
          ++ ((((q.question.name.val.splitOn 46).flatMap fun p => p.length :: p)
                ++ [0])
              ++ putU16 q.question.ty.toU16 ++ putU16 q.question.cls.toU16))
    ∧ (DnsHeader.serialize q.header []
        ++ ((((q.question.name.val.splitOn 46).flatMap fun p => p.length :: p)
              ++ [0])
            ++ putU16 q.question.ty.toU16
            ++ putU16 q.question.cls.toU16)).length
      = 12 + (((q.question.name.val.splitOn 46).map fun p => 1 + p.length).sum
          + 1) + 4 := by
  constructor
  · rw [DnsQuery.serialize, question_serialize_ok _ _ h,
      header_serialize_frame]
    simp
  · have hm := length_flatMap_label (q.question.name.val.splitOn 46)
    simp only [List.length_append, hm, DnsHeader.serialize, putU16,
      List.length_cons, List.length_nil]
    omega

/-- C1 counterexample: `Query::new(0xABCD, "example.com", A)` serializes to
the listed bytes `AB CD 01 00 ... 00 01`, but that buffer is 29 bytes long
(12 + 13 + 4), not 41 as the claim says. -/
theorem query_serialize_not_41_bytes :
    DnsQuery.serialize (DnsQuery.new 0xABCD
        [101, 120, 97, 109, 112, 108, 101, 46, 99, 111, 109] Ty.A) []
      = .ok [0xAB, 0xCD, 0x01, 0x00, 0x00, 0x01, 0x00, 0x00, 0x00, 0x00,
          0x00, 0x00, 7, 101, 120, 97, 109, 112, 108, 101, 3, 99, 111, 109,
          0, 0x00, 0x01, 0x00, 0x01]
    ∧ ([0xAB, 0xCD, 0x01, 0x00, 0x00, 0x01, 0x00, 0x00, 0x00, 0x00,
          0x00, 0x00, 7, 101, 120, 97, 109, 112, 108, 101, 3, 99, 111, 109,
          0, 0x00, 0x01, 0x00, 0x01] : List Nat).length = 29
    ∧ ¬ ([0xAB, 0xCD, 0x01, 0x00, 0x00, 0x01, 0x00, 0x00, 0x00, 0x00,
          0x00, 0x00, 7, 101, 120, 97, 109, 112, 108, 101, 3, 99, 111, 109,
          0, 0x00, 0x01, 0x00, 0x01] : List Nat).length = 41 := by
  decide

/-- C1 witness: `Query::new(0xABCD, "example.com", A)` serialized yields the
29-byte buffer from the source's `test_dns_query_new` test, and the length
formula evaluates to 29 there. -/
theorem query_serialize_header_then_question_witness :
    (∀ p ∈ ((DnsQuery.new 0xABCD
        [101, 120, 97, 109, 112, 108, 101, 46, 99, 111, 109]
        Ty.A).question.name.val.splitOn 46), p.length ≤ 255)
    ∧ DnsQuery.serialize (DnsQuery.new 0xABCD
        [101, 120, 97, 109, 112, 108, 101, 46, 99, 111, 109] Ty.A) []
      = .ok [0xAB, 0xCD, 0x01, 0x00, 0x00, 0x01, 0x00, 0x00, 0x00, 0x00,
          0x00, 0x00, 7, 101, 120, 97, 109, 112, 108, 101, 3, 99, 111, 109,
          0, 0x00, 0x01, 0x00, 0x01]
    ∧ (12 + ((([101, 120, 97, 109, 112, 108, 101, 46, 99, 111, 109]
          : List Nat).splitOn 46).map fun p => 1 + p.length).sum + 1) + 4
      = 29 := by
  have h := query_serialize_header_then_question (DnsQuery.new 0xABCD
    [101, 120, 97, 109, 112, 108, 101, 46, 99, 111, 109] Ty.A) [] (by decide)
  exact ⟨by decide, h.1.trans (by decide), by decide⟩

/-- C2: a domain containing a label longer than 255 bytes fails to
serialize with `labelTooLong` (in the source, the `try_into().unwrap()`
panic) instead of truncating or wrapping the length; the failure produces
no output bytes. -/
theorem domain_label_too_long_fails (d : Domain) (dst : List Nat)
    (h : ∃ p ∈ d.val.splitOn 46, 255 < p.length) :
    Domain.serialize d dst = .error .labelTooLong :=
  domain_serialize_err d dst h

set_option maxRecDepth 4000 in
/-- C2 witness: a single label of length 256. -/
theorem domain_label_too_long_fails_witness :
    (∃ p ∈ (List.replicate 256 97).splitOn 46, 255 < p.length)
    ∧ Domain.serialize ⟨List.replicate 256 97⟩ [] = .error .labelTooLong :=
  ⟨by decide, domain_label_too_long_fails ⟨List.replicate 256 97⟩ [] (by decide)⟩

/-- C3: when every dot-separated label fits in a byte, DomainName
serialization appends, for each label in order, a length byte followed by
the label's raw bytes (empty labels give length byte 0), then one
terminating zero byte. -/
theorem domain_serialize_length_prefixed (d : Domain) (dst : List Nat)
    (h : ∀ p ∈ d.val.splitOn 46, p.length ≤ 255) :
    Domain.serialize d dst
      = .ok (dst ++ ((d.val.splitOn 46).flatMap fun p => p.length :: p)
          ++ [0]) :=
  domain_serialize_ok d dst h

/-- C3 witness: `"google.com.br"` serializes to
`06 "google" 03 "com" 02 "br" 00`. -/
theorem domain_serialize_length_prefixed_witness :
    (∀ p ∈ ([103, 111, 111, 103, 108, 101, 46, 99, 111, 109, 46, 98, 114]
        : List Nat).splitOn 46, p.length ≤ 255)
    ∧ Domain.serialize
        ⟨[103, 111, 111, 103, 108, 101, 46, 99, 111, 109, 46, 98, 114]⟩ []
      = .ok [6, 103, 111, 111, 103, 108, 101, 3, 99, 111, 109, 2, 98, 114,
          0] := by
  have h := domain_serialize_length_prefixed
    ⟨[103, 111, 111, 103, 108, 101, 46, 99, 111, 109, 46, 98, 114]⟩ []
    (by decide)
  exact ⟨by decide, h.trans (by decide)⟩

/-- C4 counterexample: the domain `"a."` (bytes `[97, 46]`) has all labels
of length at most 255 and serializes to `[1, 97, 0, 0]`, but the
length-prefix decoder prescribed by the claim stops at the first
zero-length label and does not reproduce the label sequence
`[[97], []]`. -/
theorem domain_roundtrip_counterexample :
    (∀ p ∈ ([97, 46] : List Nat).splitOn 46, p.length ≤ 255)
    ∧ Domain.serialize ⟨[97, 46]⟩ [] = .ok [1, 97, 0, 0]
    ∧ decodeLabels [1, 97, 0, 0] ≠ some (([97, 46] : List Nat).splitOn 46) := by
  decide

/-- C4 amended: for every domain name all of whose labels are nonempty and
at most 255 bytes, decoding the bytes produced by DomainName serialization
reproduces exactly the original ordered label sequence. -/
theorem domain_roundtrip_nonempty_labels (d : Domain)
    (h : ∀ p ∈ d.val.splitOn 46, p ≠ [] ∧ p.length ≤ 255) :
    ∃ out, Domain.serialize d [] = .ok out
      ∧ decodeLabels out = some (d.val.splitOn 46) := by
  refine ⟨((d.val.splitOn 46).flatMap fun p => p.length :: p) ++ [0], ?_, ?_⟩
  · simpa using domain_serialize_ok d [] fun p hp => (h p hp).2
  · show decodeLabelsFuel _ _ = _
    exact decodeLabelsFuel_flatMap (d.val.splitOn 46) h _ le_rfl

/-- C4 amended witness: round trip on `"google.com.br"`. -/
theorem domain_roundtrip_nonempty_labels_witness :
    (∀ p ∈ ([103, 111, 111, 103, 108, 101, 46, 99, 111, 109, 46, 98, 114]
        : List Nat).splitOn 46, p ≠ [] ∧ p.length ≤ 255)
    ∧ ∃ out, Domain.serialize
        ⟨[103, 111, 111, 103, 108, 101, 46, 99, 111, 109, 46, 98, 114]⟩ []
        = .ok out
      ∧ decodeLabels out
        = some (([103, 111, 111, 103, 108, 101, 46, 99, 111, 109, 46, 98,
            114] : List Nat).splitOn 46) :=
  ⟨by decide, domain_roundtrip_nonempty_labels
    ⟨[103, 111, 111, 103, 108, 101, 46, 99, 111, 109, 46, 98, 114]⟩
    (by decide)⟩

/-- C5: Header serialization appends exactly 12 bytes — the six 16-bit
fields, each as a 2-byte big-endian integer, in declaration order, with no
validation of the values. -/
theorem header_serialize_twelve_bytes (h : DnsHeader) (dst : List Nat)
    (h1 : h.id < 65536) (h2 : h.flags < 65536) (h3 : h.num_questions < 65536)
    (h4 : h.num_answers < 65536) (h5 : h.num_authorities < 65536)
    (h6 : h.num_additionals < 65536) :
    DnsHeader.serialize h dst
      = dst ++ [h.id / 256, h.id % 256, h.flags / 256, h.flags % 256,
          h.num_questions / 256, h.num_questions % 256,
          h.num_answers / 256, h.num_answers % 256,
          h.num_authorities / 256, h.num_authorities % 256,
          h.num_additionals / 256, h.num_additionals % 256]
    ∧ (DnsHeader.serialize h dst).length = dst.length + 12 := by
  have e1 : h.id / 256 % 256 = h.id / 256 := by omega
  have e2 : h.flags / 256 % 256 = h.flags / 256 := by omega
  have e3 : h.num_questions / 256 % 256 = h.num_questions / 256 := by omega
  have e4 : h.num_answers / 256 % 256 = h.num_answers / 256 := by omega
  have e5 : h.num_authorities / 256 % 256 = h.num_authorities / 256 := by
    omega
  have e6 : h.num_additionals / 256 % 256 = h.num_additionals / 256 := by
    omega
  constructor
  · simp [DnsHeader.serialize, putU16, e1, e2, e3, e4, e5, e6]
  · simp [DnsHeader.serialize, putU16]

/-- C5 witness: the concrete header from the source's `test_dns_header`
test serializes to `13 14 00 01 00 02 00 03 00 04 00 05`. -/
theorem header_serialize_twelve_bytes_witness :
    (0x1314 < 65536 ∧ (1 : Nat) < 65536 ∧ (2 : Nat) < 65536
      ∧ (3 : Nat) < 65536 ∧ (4 : Nat) < 65536 ∧ (5 : Nat) < 65536)
    ∧ DnsHeader.serialize ⟨0x1314, 1, 2, 3, 4, 5⟩ []
      = [0x13, 0x14, 0, 1, 0, 2, 0, 3, 0, 4, 0, 5]
    ∧ (DnsHeader.serialize ⟨0x1314, 1, 2, 3, 4, 5⟩ []).length = 0 + 12 := by
  have h := header_serialize_twelve_bytes ⟨0x1314, 1, 2, 3, 4, 5⟩ []
    (by decide) (by decide) (by decide) (by decide) (by decide) (by decide)
  exact ⟨by decide, h.1.trans (by decide), h.2⟩

/-- C6: reinterpreting the 12 bytes of a serialized Header as six
big-endian 16-bit integers reproduces the six field values exactly. -/
theorem header_serialize_roundtrip (h : DnsHeader)
    (h1 : h.id < 65536) (h2 : h.flags < 65536) (h3 : h.num_questions < 65536)
    (h4 : h.num_answers < 65536) (h5 : h.num_authorities < 65536)
    (h6 : h.num_additionals < 65536)
    (b0 b1 b2 b3 b4 b5 b6 b7 b8 b9 b10 b11 : Nat)
    (hb : DnsHeader.serialize h []
      = [b0, b1, b2, b3, b4, b5, b6, b7, b8, b9, b10, b11]) :
    b0 * 256 + b1 = h.id ∧ b2 * 256 + b3 = h.flags
    ∧ b4 * 256 + b5 = h.num_questions ∧ b6 * 256 + b7 = h.num_answers
    ∧ b8 * 256 + b9 = h.num_authorities
    ∧ b10 * 256 + b11 = h.num_additionals := by
  simp [DnsHeader.serialize, putU16] at hb
  obtain ⟨g0, g1, g2, g3, g4, g5, g6, g7, g8, g9, g10, g11⟩ := hb
  refine ⟨?_, ?_, ?_, ?_, ?_, ?_⟩ <;> omega

/-- C6 witness: the round trip at the concrete header
`⟨0x1314, 1, 2, 3, 4, 5⟩`. -/
theorem header_serialize_roundtrip_witness :
    (0x1314 < 65536 ∧ (1 : Nat) < 65536 ∧ (2 : Nat) < 65536
      ∧ (3 : Nat) < 65536 ∧ (4 : Nat) < 65536 ∧ (5 : Nat) < 65536)
    ∧ DnsHeader.serialize ⟨0x1314, 1, 2, 3, 4, 5⟩ []
      = [0x13, 0x14, 0, 1, 0, 2, 0, 3, 0, 4, 0, 5]
    ∧ (0x13 * 256 + 0x14 = 0x1314 ∧ 0 * 256 + 1 = 1 ∧ 0 * 256 + 2 = 2
      ∧ 0 * 256 + 3 = 3 ∧ 0 * 256 + 4 = 4 ∧ 0 * 256 + 5 = 5) :=
  ⟨by decide, by decide,
    header_serialize_roundtrip ⟨0x1314, 1, 2, 3, 4, 5⟩
      (by decide) (by decide) (by decide) (by decide) (by decide) (by decide)
      0x13 0x14 0 1 0 2 0 3 0 4 0 5 (by decide)⟩

/-- C7: QuestionRecord serialization appends the DomainName encoding of
its name, then the 2-byte big-endian type code, then the 2-byte big-endian
class code, with the wire values A = 1 and In = 1. -/
theorem question_serialize_name_type_class (q : DnsQuestion) (dst : List Nat)
    (h : ∀ p ∈ q.name.val.splitOn 46, p.length ≤ 255) :
    DnsQuestion.serialize q dst
      = .ok (dst ++ (((q.name.val.splitOn 46).flatMap fun p => p.length :: p)
          ++ [0]) ++ putU16 q.ty.toU16 ++ putU16 q.cls.toU16)
    ∧ Ty.toU16 Ty.A = 1 ∧ Class.toU16 Class.In = 1 :=
  ⟨question_serialize_ok q dst h, rfl, rfl⟩

/-- C7 witness: `Question{name:"foo", type:A, class:In}` serializes to
`03 "foo" 00 00 01 00 01`. -/
theorem question_serialize_name_type_class_witness :
    (∀ p ∈ ([102, 111, 111] : List Nat).splitOn 46, p.length ≤ 255)
    ∧ DnsQuestion.serialize ⟨⟨[102, 111, 111]⟩, Ty.A, Class.In⟩ []
      = .ok [3, 102, 111, 111, 0, 0, 1, 0, 1] := by
  have h := question_serialize_name_type_class
    ⟨⟨[102, 111, 111]⟩, Ty.A, Class.In⟩ [] (by decide)
  exact ⟨by decide, h.1.trans (by decide)⟩

/-- C8: `DnsQuery::new(id, domain, ty)` yields a header with the given id,
flags exactly `0x0100` (recursion desired only), question count 1 and all
other counts 0, and a question with the given domain, the given type and
class `In`. -/
theorem query_new_fields (id : Nat) (domain : List Nat) (ty : Ty) :
    (DnsQuery.new id domain ty).header.id = id
    ∧ (DnsQuery.new id domain ty).header.flags = 0x0100
    ∧ (DnsQuery.new id domain ty).header.num_questions = 1
    ∧ (DnsQuery.new id domain ty).header.num_answers = 0
    ∧ (DnsQuery.new id domain ty).header.num_authorities = 0
    ∧ (DnsQuery.new id domain ty).header.num_additionals = 0
    ∧ (DnsQuery.new id domain ty).question.name = ⟨domain⟩
    ∧ (DnsQuery.new id domain ty).question.ty = ty
    ∧ (DnsQuery.new id domain ty).question.cls = Class.In :=
  ⟨rfl, rfl, rfl, rfl, rfl, rfl, rfl, rfl, rfl⟩

/-- C9: every serialize only appends — its output is the prior buffer
followed by the bytes it would produce on an empty buffer, so the appended
bytes are a function of the serialized value alone (the value itself is
never changed; the embedding is purely functional). -/
theorem serialize_append_only (hd : DnsHeader) (d : Domain)
    (qr : DnsQuestion) (q : DnsQuery) (dst : List Nat) :
    DnsHeader.serialize hd dst = dst ++ DnsHeader.serialize hd []
    ∧ Domain.serialize d dst = (Domain.serialize d []).map (fun s => dst ++ s)
    ∧ DnsQuestion.serialize qr dst
      = (DnsQuestion.serialize qr []).map (fun s => dst ++ s)
    ∧ DnsQuery.serialize q dst
      = (DnsQuery.serialize q []).map (fun s => dst ++ s) := by
  refine ⟨header_serialize_frame hd dst, domain_serialize_frame d dst,
    question_serialize_frame qr dst, ?_⟩
  rw [DnsQuery.serialize, DnsQuery.serialize, header_serialize_frame,
    question_serialize_frame q.question
      (dst ++ DnsHeader.serialize q.header []),
    question_serialize_frame q.question (DnsHeader.serialize q.header [])]
  cases DnsQuestion.serialize q.question [] with
  | ok s => simp [Except.map]
  | error e => simp [Except.map]

/-- C10: `DnsQuery::new` never inspects the domain bytes — it stores them
as given and succeeds for every input — so an over-long label only fails
later, when the query is serialized. -/
theorem query_new_no_validation (id : Nat) (domain : List Nat) (ty : Ty)
    (dst : List Nat) :
    (DnsQuery.new id domain ty).question.name.val = domain
    ∧ ((∃ p ∈ domain.splitOn 46, 255 < p.length) →
        DnsQuery.serialize (DnsQuery.new id domain ty) dst
          = .error .labelTooLong) := by
  refine ⟨rfl, fun h => ?_⟩
  rw [DnsQuery.serialize, DnsQuestion.serialize,
    domain_serialize_err (DnsQuery.new id domain ty).question.name _ h]

set_option maxRecDepth 4000 in
/-- C10 witness: a query built from a single 256-byte label is constructed
without error but fails to serialize. -/
theorem query_new_no_validation_witness :
    (DnsQuery.new 7 (List.replicate 256 97) Ty.A).question.name.val
      = List.replicate 256 97
    ∧ (∃ p ∈ (List.replicate 256 97).splitOn 46, 255 < p.length)
    ∧ DnsQuery.serialize (DnsQuery.new 7 (List.replicate 256 97) Ty.A) []
      = .error .labelTooLong := by
  have h := query_new_no_validation 7 (List.replicate 256 97) Ty.A []
  exact ⟨h.1, by decide, h.2 (by decide)⟩

end DnsRes
